import Mathlib

/-!
Verification of the two ONNX preprocessing utilities of this repository:
`scripts/extract_emap.py` (EMAP matrix extractor) and
`scripts/patch_det10g.py` (AveragePool `ceil_mode` attribute patcher).

The ONNX model graph is embedded shallowly: initializers are named tensors
with a dimension list and a flat row-major payload, nodes carry an
operator-type tag and a list of named integer attributes.  Tensor payloads
are modelled as the 32-bit patterns of their float32 values (each a natural
number below 2^32 understood bitwise), so the numpy `astype(float32)` step
on an already-float32 tensor is the identity on payloads and `tobytes()`
is little-endian serialization of each 32-bit pattern.
-/

/-- An ONNX initializer (`TensorProto`): a named constant tensor.
`dims` is the shape, `data` the flat row-major payload where each
element is the 32-bit pattern of a float32 value. -/
structure TensorProto where
  name : String
  dims : List Nat
  data : List Nat
deriving DecidableEq

/-- An ONNX node attribute (`AttributeProto`) with its integer payload
(the only payload the patcher reads, via `attr.i`). -/
structure AttributeProto where
  name : String
  i : Int
deriving DecidableEq

/-- An ONNX graph node: named operator invocation with attributes.
The field `attr` models the protobuf repeated field `node.attribute`
(`attribute` is a Lean keyword, so the field is shortened here). -/
structure NodeProto where
  name : String
  op_type : String
  attr : List AttributeProto
deriving DecidableEq

/-- An ONNX model graph: the node list and the initializer list
(`model.graph.node` and `model.graph.initializer`). -/
structure GraphProto where
  node : List NodeProto
  initializer : List TensorProto
deriving DecidableEq

namespace ExtractEmap

/-- The alias list `emap_names = ['emap', 'Emap', 'EMAP', 'e_map', 'embedding_map']`
from `extract_emap.py`. -/
def emap_names : List String := ["emap", "Emap", "EMAP", "e_map", "embedding_map"]

/-- Substring containment on character lists, the semantics of the Python
expression `pat in s` for strings. -/
def containsSub (pat : List Char) : List Char → Bool
  | [] => pat.isEmpty
  | c :: rest => pat.isPrefixOf (c :: rest) || containsSub pat rest

/-- Python `str.lower()` as a character-wise map (the names involved are
ASCII, where the two agree). -/
def pyLower (s : List Char) : List Char := s.map Char.toLower

/-- The name rule of the extractor loop:
`initializer.name in emap_names or 'emap' in initializer.name.lower()`. -/
def nameMatch (t : TensorProto) : Bool :=
  emap_names.contains t.name || containsSub "emap".data (pyLower t.name.data)

/-- The shape rule of the extractor loop:
`len(shape) == 2 and shape[0] == 512 and shape[1] == 512`. -/
def shapeMatch (t : TensorProto) : Bool :=
  t.dims.length == 2 && t.dims.getD 0 0 == 512 && t.dims.getD 1 0 == 512

/-- A tensor satisfying either selection rule of the extractor. -/
def matchesEither (t : TensorProto) : Bool :=
  nameMatch t || shapeMatch t

/-- The selection loop of `extract_emap`: one pass over the initializers in
document order; each iteration first checks the name rule and returns on a
match, then checks the shape rule and returns on a match; `none` models the
`ValueError("EMAP initializer not found in model")` raised after the loop. -/
def findEmap : List TensorProto → Option TensorProto
  | [] => none
  | t :: rest =>
    if nameMatch t then some t
    else if shapeMatch t then some t
    else findEmap rest

/-- `extract_emap`: load the graph and run the selection loop over
`model.graph.initializer`. -/
def extract_emap (g : GraphProto) : Option TensorProto :=
  findEmap g.initializer

/-- Little-endian byte serialization of one 32-bit pattern (the four bytes
numpy writes for one float32 value on a little-endian host). -/
def word32le (w : Nat) : List Nat :=
  [w % 256, w / 256 % 256, w / 65536 % 256, w / 16777216 % 256]

/-- `ndarray.tobytes()` on a flat float32 array: concatenated little-endian
four-byte encodings of the elements, in row-major element order. -/
def tobytes : List Nat → List Nat
  | [] => []
  | w :: ws => word32le w ++ tobytes ws

/-- `save_binary`: `emap.astype(np.float32).tobytes()` written to the output
file; on the float32 bit-pattern payloads of the model `astype(np.float32)`
is the identity, so the file content is `tobytes` of the payload. -/
def save_binary (t : TensorProto) : List Nat :=
  tobytes t.data

/-- The extractor pipeline of `main`: extract the tensor, then the byte
content `save_binary` writes; `none` when extraction raised. -/
def runExtractor (g : GraphProto) : Option (List Nat) :=
  (extract_emap g).map save_binary

/-- Resolution of `(input_path, output_path)` from the argument list (the
arguments after the program name) in `extract_emap.py`'s `main`. -/
def resolveArgs : List String → String × String
  | a :: b :: _ => (a, b)
  | [a] => (a, "emap.bin")
  | [] => ("inswapper_128.onnx", "emap.bin")

theorem findEmap_eq_find? (l : List TensorProto) :
    findEmap l = l.find? matchesEither := by
  induction l with
  | nil => rfl
  | cons t rest ih =>
    by_cases hn : nameMatch t
    · simp [findEmap, hn, List.find?, matchesEither]
    · by_cases hs : shapeMatch t
      · simp [findEmap, hn, hs, List.find?, matchesEither]
      · simp [findEmap, hn, hs, List.find?, matchesEither, ih]

theorem shapeMatch_iff (t : TensorProto) :
    shapeMatch t = true ↔ t.dims = [512, 512] := by
  match t with
  | ⟨nm, dims, data⟩ =>
    match dims with
    | [] => simp [shapeMatch]
    | [a] => simp [shapeMatch]
    | a :: b :: c :: rest => simp [shapeMatch]
    | [a, b] =>
      simp [shapeMatch]

theorem length_tobytes (l : List Nat) : (tobytes l).length = 4 * l.length := by
  induction l with
  | nil => rfl
  | cons w ws ih =>
    simp [tobytes, word32le, ih]
    omega

theorem matchesEither_eq_false (t : TensorProto) :
    (¬ matchesEither t = true) ↔ (nameMatch t = false ∧ t.dims ≠ [512, 512]) := by
  simp [matchesEither, shapeMatch_iff]

theorem tobytes_block (l : List Nat) (k : Nat) (hk : k < l.length) :
    ((tobytes l).drop (4 * k)).take 4 = word32le (l.getD k 0) := by
  induction l generalizing k with
  | nil => simp at hk
  | cons w ws ih =>
    match k with
    | 0 => simp [tobytes, word32le]
    | k + 1 =>
      have h4 : 4 * (k + 1) = 4 * k + 1 + 1 + 1 + 1 := by omega
      rw [h4]
      simp only [tobytes, word32le, List.cons_append, List.drop_succ_cons,
        List.nil_append, List.getD_cons_succ]
      exact ih k (by simpa using hk)

/-- A [512,512] initializer, earlier in document order, whose name does not
match the name rule. -/
def tShapeFirst : TensorProto := ⟨"onnx_conv_weight", [512, 512], []⟩

/-- A later initializer matching the name rule (named exactly "emap"). -/
def tNameLater : TensorProto := ⟨"emap", [2, 2], []⟩

/-- Graph holding both: the shape-only match strictly before the name match. -/
def gC1 : GraphProto := ⟨[], [tShapeFirst, tNameLater]⟩

/-- Claim C1 counterexample: in a graph whose initializer list holds a
non-name-matching [512,512] tensor before a name-matching tensor, the
extractor selects the earlier shape-matched tensor, not the name-matched
one: the selection loop is a single pass checking name then shape per
initializer, so there is no deferred shape re-scan giving name matches
priority. -/
theorem C1_counterexample :
    nameMatch tNameLater = true ∧ nameMatch tShapeFirst = false ∧
    shapeMatch tShapeFirst = true ∧ tShapeFirst ≠ tNameLater ∧
    extract_emap gC1 = some tShapeFirst ∧
    extract_emap gC1 ≠ some tNameLater := by
  decide

/-- Claim C1 (amended): the extractor selects the first initializer, in
document order, that satisfies either the name rule or the shape rule; a
later name match has no priority over an earlier shape match. -/
theorem C1_amended_first_match_either_rule (g : GraphProto) :
    extract_emap g = g.initializer.find? matchesEither := by
  rw [extract_emap, findEmap_eq_find?]

/-- Claim C3: extraction fails (the ValueError modelled by `none`) exactly
when no initializer satisfies either selection rule after the full scan,
and whenever some initializer satisfies a rule the extractor returns a
tensor. -/
theorem C3_fails_iff_no_candidate (g : GraphProto) :
    (extract_emap g = none ↔
      ∀ t ∈ g.initializer, nameMatch t = false ∧ t.dims ≠ [512, 512]) ∧
    ((∃ t ∈ g.initializer, nameMatch t = true ∨ t.dims = [512, 512]) →
      (extract_emap g).isSome = true) := by
  have hmain : extract_emap g = none ↔
      ∀ t ∈ g.initializer, nameMatch t = false ∧ t.dims ≠ [512, 512] := by
    rw [extract_emap, findEmap_eq_find?, List.find?_eq_none]
    constructor
    · intro h t ht
      exact (matchesEither_eq_false t).mp (h t ht)
    · intro h t ht
      exact (matchesEither_eq_false t).mpr (h t ht)
  refine ⟨hmain, ?_⟩
  rintro ⟨t, ht, hrule⟩
  rw [Option.isSome_iff_ne_none]
  intro hnone
  have := (hmain.mp hnone) t ht
  rcases hrule with h1 | h2
  · rw [this.1] at h1
    exact Bool.false_ne_true h1
  · exact this.2 h2

/-- Witness for C3: a graph with one name-matching initializer makes the
extractor return a tensor. -/
theorem C3_witness :
    (extract_emap ⟨[], [⟨"emap", [4], [1]⟩]⟩).isSome = true := by
  refine (C3_fails_iff_no_candidate ⟨[], [⟨"emap", [4], [1]⟩]⟩).2 ?_
  exact ⟨⟨"emap", [4], [1]⟩, by simp, Or.inl (by decide)⟩

/-- An initializer whose lowercase name contains "emap", placed before the
tensor named exactly "emap"; its shape is [3]. -/
def tPre : TensorProto := ⟨"pre_emap_fc", [3], [1, 2, 3]⟩

/-- A tensor named exactly "emap" with shape [512,512] and a well-formed
payload of 262144 elements. -/
def tEmapBig : TensorProto := ⟨"emap", [512, 512], List.replicate 262144 0⟩

/-- Graph for the C2 counterexample: another name-rule match precedes the
tensor named exactly "emap". -/
def gC2 : GraphProto := ⟨[], [tPre, tEmapBig]⟩

/-- Claim C2 counterexample: a graph contains a tensor named exactly "emap"
with shape [512,512], yet extraction writes the bytes of a different,
earlier initializer whose lowercase name also contains "emap": the output
is 12 bytes, not the 1,048,576-byte encoding of the "emap" tensor.  The
universal claim over all graphs containing such a tensor fails. -/
theorem C2_counterexample :
    tEmapBig.name = "emap" ∧ tEmapBig.dims = [512, 512] ∧
    tEmapBig ∈ gC2.initializer ∧
    runExtractor gC2 = some (save_binary tPre) ∧
    (save_binary tPre).length = 12 ∧
    (save_binary tPre).length ≠ 1048576 := by
  refine ⟨rfl, rfl, List.Mem.tail _ (List.Mem.head _), rfl, by decide, by decide⟩

/-- Claim C2 (amended): when the tensor the selection loop returns is the
tensor named exactly "emap" with shape [512,512] and a payload of 262144
values, the extractor output is exactly the little-endian float32
encoding of that payload in row-major order: 1,048,576 bytes with no
header or footer, value k occupying bytes 4k..4k+3. -/
theorem C2_amended_selected_emap_bytes (g : GraphProto) (t : TensorProto)
    (h1 : extract_emap g = some t) (_h2 : t.name = "emap")
    (_h3 : t.dims = [512, 512]) (h4 : t.data.length = 262144) :
    runExtractor g = some (save_binary t) ∧
    (save_binary t).length = 1048576 ∧
    ∀ k, k < 262144 →
      ((save_binary t).drop (4 * k)).take 4 = word32le (t.data.getD k 0) := by
  refine ⟨by rw [runExtractor, h1]; rfl, ?_, ?_⟩
  · show (tobytes t.data).length = 1048576
    rw [length_tobytes, h4]
  · intro k hk
    exact tobytes_block t.data k (by rw [h4]; exact hk)

/-- Witness graph for the amended C2: the "emap" tensor is the sole
initializer, hence the selected one. -/
def gC2W : GraphProto := ⟨[], [tEmapBig]⟩

/-- Witness for the amended C2 at a concrete graph. -/
theorem C2_witness :
    runExtractor gC2W = some (save_binary tEmapBig) ∧
    (save_binary tEmapBig).length = 1048576 := by
  have h := C2_amended_selected_emap_bytes gC2W tEmapBig rfl rfl rfl
    (List.length_replicate 262144 0)
  exact ⟨h.1, h.2.1⟩

/-- A [512,512] initializer with a name the name rule rejects, before the
small name-matching tensor of the C10 counterexample. -/
def tBigC10 : TensorProto := ⟨"onnx_fc_weight", [512, 512], List.replicate 262144 0⟩

/-- A name-matching tensor (named exactly "emap") with shape [1]. -/
def tEmapSmall : TensorProto := ⟨"emap", [1], [7]⟩

/-- Graph for the C10 counterexample. -/
def gC10 : GraphProto := ⟨[], [tBigC10, tEmapSmall]⟩

/-- Claim C10 counterexample: the first name-matching initializer of this
graph has shape [1], yet the output is not 4 bytes and is exactly
1,048,576 bytes, because the selection loop returns the earlier [512,512]
shape match before ever reaching the name match. -/
theorem C10_counterexample :
    nameMatch tBigC10 = false ∧ nameMatch tEmapSmall = true ∧
    tEmapSmall.dims ≠ [512, 512] ∧
    gC10.initializer.find? nameMatch = some tEmapSmall ∧
    runExtractor gC10 = some (save_binary tBigC10) ∧
    (save_binary tBigC10).length = 1048576 ∧
    (save_binary tBigC10).length ≠ 4 * tEmapSmall.data.length := by
  have hdata : tBigC10.data = List.replicate 262144 0 := rfl
  have hlen : (save_binary tBigC10).length = 1048576 := by
    simp only [save_binary, length_tobytes, hdata, List.length_replicate]
  refine ⟨by decide, by decide, by decide, rfl, rfl, hlen, ?_⟩
  rw [hlen]
  decide

/-- Claim C10 (amended): when the tensor the selection loop returns matches
the name rule with a shape other than [512,512], extraction still succeeds
and the output has 4 bytes per payload element, which differs from
1,048,576 whenever the payload size differs from 262,144 elements: the
name rule performs no shape check and the output-size guarantee holds only
for [512,512] payloads. -/
theorem C10_amended_name_match_any_shape (g : GraphProto) (t : TensorProto)
    (h1 : extract_emap g = some t) (_h2 : nameMatch t = true)
    (_h3 : t.dims ≠ [512, 512]) :
    runExtractor g = some (save_binary t) ∧
    (save_binary t).length = 4 * t.data.length ∧
    (t.data.length ≠ 262144 → (save_binary t).length ≠ 1048576) := by
  have hlen : (save_binary t).length = 4 * t.data.length := length_tobytes t.data
  refine ⟨by rw [runExtractor, h1]; rfl, hlen, ?_⟩
  intro hne
  rw [hlen]
  omega

/-- Witness graph for the amended C10: a single one-element tensor named
"emap". -/
def gC10W : GraphProto := ⟨[], [tEmapSmall]⟩

/-- Witness for the amended C10 at a concrete graph: the 4-byte output. -/
theorem C10_witness :
    runExtractor gC10W = some (save_binary tEmapSmall) ∧
    (save_binary tEmapSmall).length = 4 ∧
    (save_binary tEmapSmall).length ≠ 1048576 := by
  have h := C10_amended_name_match_any_shape gC10W tEmapSmall rfl (by decide)
    (by decide)
  exact ⟨h.1, by simpa [tEmapSmall] using h.2.1, h.2.2 (by decide)⟩

end ExtractEmap

namespace PatchDet10g

/-- The predicate of the inner scan of `patch_ceil_mode`:
`attr.name == "ceil_mode"`. -/
def ceilAttr (a : AttributeProto) : Bool := a.name == "ceil_mode"

/-- The inner loop of `patch_ceil_mode` on one node's attribute list:
`for i, attr in enumerate(node.attribute): if attr.name == "ceil_mode":
del node.attribute[i]; patch_count += 1; break` — delete the first
attribute named "ceil_mode", contributing 1 to the patch count, and stop. -/
def removeCeil : List AttributeProto → List AttributeProto × Nat
  | [] => ([], 0)
  | a :: rest =>
    if ceilAttr a then (rest, 1)
    else
      let r := removeCeil rest
      (a :: r.1, r.2)

/-- One iteration of the outer loop of `patch_ceil_mode`: nodes whose
`op_type` is "AveragePool" get the inner scan, other nodes are untouched. -/
def patchNode (n : NodeProto) : NodeProto × Nat :=
  if n.op_type == "AveragePool" then
    let r := removeCeil n.attr
    ({ n with attr := r.1 }, r.2)
  else (n, 0)

/-- `patch_ceil_mode`: visit every node of the graph in document order,
apply the inner scan to the "AveragePool" ones, and return the mutated
graph together with the accumulated `patch_count`. -/
def patch_ceil_mode (g : GraphProto) : GraphProto × Nat :=
  ({ g with node := g.node.map (fun n => (patchNode n).1) },
   (g.node.map (fun n => (patchNode n).2)).sum)

/-- The save step of `patch_ceil_mode`: `onnx.save(model, output_path)` runs
only under `if patch_count > 0`, so the written file is `some` of the
patched graph exactly when at least one node was patched. -/
def runPatcher (g : GraphProto) : Option GraphProto × Nat :=
  let r := patch_ceil_mode g
  (if r.2 > 0 then some r.1 else none, r.2)

/-- Python `str.replace` on character lists: replace every non-overlapping
occurrence of `pat`, scanning left to right (the patcher only uses a
nonempty `pat`).  The `fuel` argument, instantiated with the length of the
subject string, makes the recursion structural; one unit of fuel is spent
per consumed leading character. -/
def replaceFuel (pat rep : List Char) : Nat → List Char → List Char
  | _, [] => []
  | 0, s => s
  | fuel + 1, c :: rest =>
    if pat.isPrefixOf (c :: rest) then
      rep ++ replaceFuel pat rep fuel (rest.drop (pat.length - 1))
    else c :: replaceFuel pat rep fuel rest

/-- Python `str.replace(pat, rep)` for a nonempty pattern. -/
def pyReplace (s pat rep : String) : String :=
  ⟨replaceFuel pat.data rep.data s.data.length s.data⟩

/-- Resolution of `(input_path, output_path)` from the argument list (the
arguments after the program name) in `patch_det10g.py`'s `main`; the
one-argument form derives the output name with
`input_path.replace(".onnx", "_patched.onnx")`. -/
def resolveArgs : List String → String × String
  | a :: b :: _ => (a, b)
  | [a] => (a, pyReplace a ".onnx" "_patched.onnx")
  | [] => ("det_10g.onnx", "det_10g_patched.onnx")

theorem removeCeil_eq (l : List AttributeProto) :
    removeCeil l = (l.eraseP ceilAttr, if l.any ceilAttr then 1 else 0) := by
  induction l with
  | nil => rfl
  | cons a rest ih =>
    by_cases h : ceilAttr a
    · simp [removeCeil, h, List.eraseP_cons, List.any_cons]
    · simp [removeCeil, h, List.eraseP_cons, List.any_cons, ih]

theorem removeCeil_count_le (l : List AttributeProto) :
    (removeCeil l).2 ≤ l.length ∧
    (removeCeil l).1.length = l.length - (removeCeil l).2 := by
  induction l with
  | nil => simp [removeCeil]
  | cons a rest ih =>
    by_cases h : ceilAttr a
    · simp [removeCeil, h]
    · simp [removeCeil, h]
      omega

theorem removeCeil_countP (l : List AttributeProto) :
    (removeCeil l).1.countP ceilAttr = l.countP ceilAttr - (removeCeil l).2 := by
  induction l with
  | nil => simp [removeCeil]
  | cons a rest ih =>
    by_cases h : ceilAttr a
    · simp [removeCeil, h, List.countP_cons]
    · simp [removeCeil, h, List.countP_cons, ih]

theorem removeCeil_count_pos (l : List AttributeProto) :
    (removeCeil l).2 = if l.any ceilAttr then 1 else 0 := by
  rw [removeCeil_eq]

theorem removeCeil_of_no_match (l : List AttributeProto)
    (h : l.any ceilAttr = false) : removeCeil l = (l, 0) := by
  induction l with
  | nil => rfl
  | cons a rest ih =>
    simp only [List.any_cons, Bool.or_eq_false_iff] at h
    simp [removeCeil, h.1, ih h.2]

theorem patchNode_not_ap (n : NodeProto) (h : ¬ n.op_type = "AveragePool") :
    patchNode n = (n, 0) := by
  simp [patchNode, h]

theorem patchNode_count (n : NodeProto) :
    (patchNode n).2 =
      if n.op_type == "AveragePool" && n.attr.any ceilAttr then 1 else 0 := by
  by_cases h : n.op_type = "AveragePool"
  · simp [patchNode, h, removeCeil_count_pos]
  · simp [patchNode, h]

theorem patchNode_fst (n : NodeProto) :
    (patchNode n).1 =
      if n.op_type == "AveragePool" then
        { n with attr := n.attr.eraseP ceilAttr }
      else n := by
  by_cases h : n.op_type = "AveragePool"
  · simp [patchNode, h, removeCeil_eq]
  · simp [patchNode, h]

theorem patchNode_preserves (n : NodeProto) :
    (patchNode n).1.name = n.name ∧ (patchNode n).1.op_type = n.op_type := by
  by_cases h : n.op_type = "AveragePool"
  · simp [patchNode, h]
  · simp [patchNode, h]

/-- Total number of attributes over all nodes of a graph. -/
def totalAttr (g : GraphProto) : Nat :=
  (g.node.map (fun n => n.attr.length)).sum

theorem patch_count_eq (ns : List NodeProto) :
    (ns.map (fun n => (patchNode n).2)).sum =
    ns.countP (fun n => n.op_type == "AveragePool" && n.attr.any ceilAttr) := by
  induction ns with
  | nil => rfl
  | cons n rest ih =>
    rw [List.map_cons, List.sum_cons, ih, patchNode_count, List.countP_cons]
    by_cases h : (n.op_type == "AveragePool" && n.attr.any ceilAttr) = true
    · rw [if_pos h]
      omega
    · rw [if_neg h]
      omega

theorem patchNode_attr_len (n : NodeProto) :
    (patchNode n).1.attr.length = n.attr.length - (patchNode n).2 ∧
    (patchNode n).2 ≤ n.attr.length := by
  by_cases h : n.op_type = "AveragePool"
  · have hr := removeCeil_count_le n.attr
    simp only [patchNode, h]
    simp only [beq_self_eq_true, if_true]
    exact ⟨hr.2, hr.1⟩
  · simp [patchNode, h]

theorem patch_total (ns : List NodeProto) :
    (ns.map (fun n => (patchNode n).1.attr.length)).sum =
    (ns.map (fun n => n.attr.length)).sum -
      (ns.map (fun n => (patchNode n).2)).sum ∧
    (ns.map (fun n => (patchNode n).2)).sum ≤
      (ns.map (fun n => n.attr.length)).sum := by
  induction ns with
  | nil => simp
  | cons n rest ih =>
    have hn := patchNode_attr_len n
    simp only [List.map_cons, List.sum_cons]
    omega

theorem sum_map_zero (l : List NodeProto) :
    (l.map (fun _ => (0 : Nat))).sum = 0 := by
  induction l with
  | nil => rfl
  | cons a l ih => simp [ih]

theorem patchNode_eq_self (n : NodeProto)
    (h : n.op_type = "AveragePool" → n.attr.any ceilAttr = false) :
    patchNode n = (n, 0) := by
  by_cases hap : n.op_type = "AveragePool"
  · simp only [patchNode, hap, beq_self_eq_true, if_true,
      removeCeil_of_no_match n.attr (h hap)]
    rw [← hap]
  · exact patchNode_not_ap n hap

theorem patch_of_no_ceil (g : GraphProto)
    (h : ∀ n ∈ g.node, n.op_type = "AveragePool" → n.attr.any ceilAttr = false) :
    patch_ceil_mode g = (g, 0) := by
  have hmapf : ∀ n ∈ g.node, (patchNode n).1 = (fun (n : NodeProto) => n) n := by
    intro n hn
    rw [patchNode_eq_self n (h n hn)]
  have hmaps : ∀ n ∈ g.node,
      (patchNode n).2 = (fun (_ : NodeProto) => (0 : Nat)) n := by
    intro n hn
    rw [patchNode_eq_self n (h n hn)]
  have h1 : g.node.map (fun n => (patchNode n).1) = g.node := by
    rw [List.map_congr_left hmapf, List.map_id']
  have h2 : (g.node.map (fun n => (patchNode n).2)).sum = 0 := by
    rw [List.map_congr_left hmaps, sum_map_zero]
  simp only [patch_ceil_mode]
  rw [h1, h2]

/-- An AveragePool node with a `ceil_mode` attribute among others. -/
def nAP1 : NodeProto := ⟨"ap1", "AveragePool", [⟨"kernel_shape", 3⟩, ⟨"ceil_mode", 1⟩, ⟨"pads", 0⟩]⟩

/-- An AveragePool node whose only attribute is `ceil_mode`. -/
def nAP2 : NodeProto := ⟨"ap2", "AveragePool", [⟨"ceil_mode", 1⟩]⟩

/-- An AveragePool node with no `ceil_mode` attribute. -/
def nAP3 : NodeProto := ⟨"ap3", "AveragePool", [⟨"strides", 2⟩]⟩

/-- A non-AveragePool node carrying a `ceil_mode` attribute, which the
patcher must leave alone. -/
def nConv : NodeProto := ⟨"conv1", "Conv", [⟨"ceil_mode", 1⟩]⟩

/-- A sample initializer for the patcher graphs. -/
def tInit : TensorProto := ⟨"w", [2, 2], [1, 2, 3, 4]⟩

/-- A concrete patcher graph: two AveragePool nodes carrying `ceil_mode`,
one without, one Conv node, one initializer. -/
def gC4 : GraphProto := ⟨[nAP1, nAP2, nAP3, nConv], [tInit]⟩

/-- Claim C4: on a graph whose AveragePool nodes carry at most one
`ceil_mode` attribute each (N of them carry it, the other M do not), the
patcher reports patch count N, the total number of attributes drops by
exactly N, the initializer list is untouched, and the node list is the
original one with exactly the first `ceil_mode` attribute erased from each
AveragePool node and nothing else changed. -/
theorem C4_patch_frame (g : GraphProto)
    (_h : ∀ n ∈ g.node, n.op_type = "AveragePool" → n.attr.countP ceilAttr ≤ 1) :
    (patch_ceil_mode g).2 =
      g.node.countP (fun n => n.op_type == "AveragePool" && n.attr.any ceilAttr) ∧
    totalAttr (patch_ceil_mode g).1 =
      totalAttr g - (patch_ceil_mode g).2 ∧
    (patch_ceil_mode g).1.initializer = g.initializer ∧
    (patch_ceil_mode g).1.node = g.node.map (fun n =>
      if n.op_type == "AveragePool" then
        { n with attr := n.attr.eraseP ceilAttr }
      else n) := by
  refine ⟨patch_count_eq g.node, ?_, rfl, ?_⟩
  · show ((g.node.map (fun n => (patchNode n).1)).map
      (fun n => n.attr.length)).sum = _
    rw [List.map_map]
    exact (patch_total g.node).1
  · show g.node.map (fun n => (patchNode n).1) = _
    exact List.map_congr_left (fun n _ => patchNode_fst n)

/-- Witness for C4 on the concrete graph `gC4`: patch count 2 and untouched
initializers. -/
theorem C4_witness :
    (patch_ceil_mode gC4).2 = 2 ∧
    (patch_ceil_mode gC4).1.initializer = gC4.initializer := by
  have h := C4_patch_frame gC4 (by decide)
  refine ⟨?_, h.2.2.1⟩
  rw [h.1]
  decide

theorem removeCeil_split (l : List AttributeProto) (h : l.any ceilAttr = true) :
    ∃ l1 a l2, l = l1 ++ a :: l2 ∧ (∀ b ∈ l1, ceilAttr b = false) ∧
      ceilAttr a = true ∧ removeCeil l = (l1 ++ l2, 1) := by
  induction l with
  | nil => simp at h
  | cons a rest ih =>
    by_cases ha : ceilAttr a
    · exact ⟨[], a, rest, rfl, by simp, ha, by simp [removeCeil, ha]⟩
    · have hrest : rest.any ceilAttr = true := by
        simpa [List.any_cons, ha] using h
      obtain ⟨l1, b, l2, he, hl1, hb, hrc⟩ := ih hrest
      refine ⟨a :: l1, b, l2, by rw [he]; rfl, ?_, hb, by simp [removeCeil, ha, hrc]⟩
      intro c hc
      rcases List.mem_cons.mp hc with hc | hc
      · rw [hc]
        exact Bool.eq_false_iff.mpr ha
      · exact hl1 c hc

/-- Claim C5: on an AveragePool node whose attribute list contains at least
one attribute named "ceil_mode", the patcher removes exactly the first such
attribute in list order, keeps every other attribute of the node in order,
and the node contributes exactly 1 to the patch count; a node of any other
operator type is returned unmodified with contribution 0. -/
theorem C5_first_match_per_node (n : NodeProto) :
    (n.op_type = "AveragePool" → n.attr.any ceilAttr = true →
      ∃ l1 a l2, n.attr = l1 ++ a :: l2 ∧ (∀ b ∈ l1, ceilAttr b = false) ∧
        ceilAttr a = true ∧ (patchNode n).1 = { n with attr := l1 ++ l2 } ∧
        (patchNode n).2 = 1) ∧
    (¬ n.op_type = "AveragePool" → patchNode n = (n, 0)) := by
  constructor
  · intro hap hany
    obtain ⟨l1, a, l2, he, hl1, ha, hrc⟩ := removeCeil_split n.attr hany
    refine ⟨l1, a, l2, he, hl1, ha, ?_, ?_⟩
    · simp [patchNode, hap, hrc]
    · simp [patchNode, hap, hrc]
  · exact patchNode_not_ap n

/-- Witness for C5: the Conv node is untouched and the AveragePool node
with a `ceil_mode` attribute contributes exactly 1. -/
theorem C5_witness :
    patchNode nConv = (nConv, 0) ∧ (patchNode nAP1).2 = 1 := by
  refine ⟨(C5_first_match_per_node nConv).2 (by decide), ?_⟩
  obtain ⟨l1, a, l2, -, -, -, -, hc⟩ :=
    (C5_first_match_per_node nAP1).1 rfl (by decide)
  exact hc

/-- An AveragePool node carrying two `ceil_mode` attributes (legal in the
underlying protobuf encoding, which the patcher does not rule out). -/
def nDup : NodeProto := ⟨"apdup", "AveragePool", [⟨"ceil_mode", 1⟩, ⟨"ceil_mode", 1⟩]⟩

/-- Graph for the C6 counterexample. -/
def gC6 : GraphProto := ⟨[nDup], []⟩

/-- Claim C6 counterexample: on a graph with an AveragePool node carrying
two `ceil_mode` attributes, the first run removes only the first one, so
re-running the patcher on the output removes the second: the second run
reports patch count 1, not 0, and changes the graph again.  Moreover even
on a quiescent graph the second run writes no file at all rather than a
byte-identical one, since saving is guarded by `patch_count > 0`. -/
theorem C6_counterexample :
    (patch_ceil_mode (patch_ceil_mode gC6).1).2 = 1 ∧
    (patch_ceil_mode (patch_ceil_mode gC6).1).2 ≠ 0 ∧
    (patch_ceil_mode (patch_ceil_mode gC6).1).1 ≠ (patch_ceil_mode gC6).1 := by
  decide

/-- Claim C6 (amended): on a graph whose AveragePool nodes carry at most
one `ceil_mode` attribute each, running the patcher on the output of a
previous run finds nothing to patch: it reports patch count 0, leaves the
graph exactly as the first run produced it, and writes no output file
(saving is guarded by a positive patch count). -/
theorem C6_amended_idempotent (g : GraphProto)
    (h : ∀ n ∈ g.node, n.op_type = "AveragePool" → n.attr.countP ceilAttr ≤ 1) :
    (patch_ceil_mode (patch_ceil_mode g).1).2 = 0 ∧
    (patch_ceil_mode (patch_ceil_mode g).1).1 = (patch_ceil_mode g).1 ∧
    (runPatcher (patch_ceil_mode g).1).1 = none := by
  have hq : ∀ n ∈ (patch_ceil_mode g).1.node,
      n.op_type = "AveragePool" → n.attr.any ceilAttr = false := by
    intro n2 hn2 hap2
    obtain ⟨n, hn, hmap⟩ := List.mem_map.mp hn2
    by_cases hap : n.op_type = "AveragePool"
    · rw [← hmap] at hap2 ⊢
      rw [patchNode_fst] at hap2 ⊢
      have hb : (n.op_type == "AveragePool") = true := by simp [hap]
      rw [hb] at hap2 ⊢
      simp only [if_true]
      rw [Bool.eq_false_iff]
      intro hany
      have h1 : 0 < (n.attr.eraseP ceilAttr).countP ceilAttr :=
        List.countP_pos_iff.mpr (by simpa using List.any_eq_true.mp hany)
      have h2 := removeCeil_countP n.attr
      rw [removeCeil_eq] at h2
      simp only at h2
      have h3 : 0 < n.attr.countP ceilAttr := by
        rcases List.any_eq_true.mp hany with ⟨a, haa, hca⟩
        exact List.countP_pos_iff.mpr ⟨a, List.mem_of_mem_eraseP haa, hca⟩
      have h4 : n.attr.any ceilAttr = true :=
        List.any_eq_true.mpr (List.countP_pos_iff.mp h3)
      rw [h4] at h2
      simp only [if_true] at h2
      have h5 := h n hn hap
      omega
    · rw [← hmap] at hap2
      rw [patchNode_eq_self n (fun hx => absurd hx hap)] at hap2
      exact absurd hap2 hap
  have hfix := patch_of_no_ceil (patch_ceil_mode g).1 hq
  refine ⟨by rw [hfix], by rw [hfix], ?_⟩
  simp [runPatcher, hfix]

/-- Witness for the amended C6 on the concrete graph `gC4`. -/
theorem C6_witness :
    (patch_ceil_mode (patch_ceil_mode gC4).1).2 = 0 ∧
    (runPatcher (patch_ceil_mode gC4).1).1 = none := by
  have h := C6_amended_idempotent gC4 (by decide)
  exact ⟨h.1, h.2.2⟩

/-- Claim C7: on a graph where no AveragePool node carries a `ceil_mode`
attribute, the patcher reports patch count 0, writes no output file (the
save call is guarded by `patch_count > 0`), leaves the in-memory graph
unchanged, and completes without error (the patch function is total). -/
theorem C7_no_match_no_write (g : GraphProto)
    (h : ∀ n ∈ g.node, n.op_type = "AveragePool" → n.attr.any ceilAttr = false) :
    runPatcher g = (none, 0) ∧ (patch_ceil_mode g).1 = g := by
  have hfix := patch_of_no_ceil g h
  constructor
  · simp [runPatcher, hfix]
  · rw [hfix]

/-- A graph with an AveragePool node lacking `ceil_mode` and a Conv node
carrying one. -/
def gC7 : GraphProto := ⟨[nAP3, nConv], [tInit]⟩

/-- Witness for C7 on the concrete graph `gC7`. -/
theorem C7_witness : runPatcher gC7 = (none, 0) :=
  (C7_no_match_no_write gC7 (by decide)).1

/-- One token of the modelled serialized stream.
Modelled from the spec: the model-graph collaborator capability
"serialize structured graph → bytes" / "parse bytes → structured graph" is
external to this repository (the `onnx` library), so its byte format is
modelled as an opaque token stream over which serialization is injective
and parsing is its inverse, per the spec's round-trip property. -/
inductive Tok where
  | nat (n : Nat)
  | str (s : String)
  | int (i : Int)
deriving DecidableEq

/-- Length-prefixed encoding of a list of naturals. -/
def encNats (l : List Nat) : List Tok :=
  Tok.nat l.length :: l.map Tok.nat

/-- Encoding of one attribute. -/
def encAttr (a : AttributeProto) : List Tok :=
  [Tok.str a.name, Tok.int a.i]

/-- Length-prefixed encoding of a list via a per-element encoder. -/
def encList (enc : α → List Tok) (l : List α) : List Tok :=
  Tok.nat l.length :: (l.map enc).flatten

/-- Encoding of one node. -/
def encNode (n : NodeProto) : List Tok :=
  Tok.str n.name :: Tok.str n.op_type :: encList encAttr n.attr

/-- Encoding of one initializer. -/
def encTensor (t : TensorProto) : List Tok :=
  Tok.str t.name :: (encNats t.dims ++ encNats t.data)

/-- Modelled from the spec: `onnx.save` / graph serialization as the
concatenated encodings of the node list and the initializer list. -/
def serializeModel (g : GraphProto) : List Tok :=
  encList encNode g.node ++ encList encTensor g.initializer

/-- Decoder for a count-prefixed run of `Tok.nat` tokens. -/
def decNats : Nat → List Tok → Option (List Nat × List Tok)
  | 0, ts => some ([], ts)
  | k + 1, Tok.nat n :: ts =>
    match decNats k ts with
    | some (l, rest) => some (n :: l, rest)
    | none => none
  | _ + 1, _ => none

/-- Decoder for one attribute. -/
def decAttr : List Tok → Option (AttributeProto × List Tok)
  | Tok.str s :: Tok.int i :: ts => some (⟨s, i⟩, ts)
  | _ => none

/-- Decoder for `k` consecutive values via a per-element decoder. -/
def decList (dec : List Tok → Option (α × List Tok)) :
    Nat → List Tok → Option (List α × List Tok)
  | 0, ts => some ([], ts)
  | k + 1, ts =>
    match dec ts with
    | some (a, ts1) =>
      match decList dec k ts1 with
      | some (l, ts2) => some (a :: l, ts2)
      | none => none
    | none => none

/-- Decoder for one node. -/
def decNode : List Tok → Option (NodeProto × List Tok)
  | Tok.str nm :: Tok.str op :: Tok.nat k :: ts =>
    match decList decAttr k ts with
    | some (attrs, rest) => some (⟨nm, op, attrs⟩, rest)
    | none => none
  | _ => none

/-- Decoder for one initializer. -/
def decTensor : List Tok → Option (TensorProto × List Tok)
  | Tok.str nm :: Tok.nat kd :: ts =>
    match decNats kd ts with
    | some (dims, Tok.nat ke :: ts1) =>
      match decNats ke ts1 with
      | some (data, rest) => some (⟨nm, dims, data⟩, rest)
      | none => none
    | _ => none
  | _ => none

/-- Modelled from the spec: `onnx.load` / graph parsing, the inverse of
`serializeModel`; `none` models the `ModelLoadError` of the spec taxonomy. -/
def parseModel (ts : List Tok) : Option GraphProto :=
  match ts with
  | Tok.nat kn :: ts1 =>
    match decList decNode kn ts1 with
    | some (nodes, Tok.nat ki :: ts2) =>
      match decList decTensor ki ts2 with
      | some (inits, []) => some ⟨nodes, inits⟩
      | _ => none
    | _ => none
  | _ => none

theorem decNats_enc (l : List Nat) (ts : List Tok) :
    decNats l.length (l.map Tok.nat ++ ts) = some (l, ts) := by
  induction l with
  | nil => rfl
  | cons n rest ih =>
    simp only [List.length_cons, List.map_cons, List.cons_append, decNats,
      List.append_eq, ih]

theorem decAttr_enc (a : AttributeProto) (ts : List Tok) :
    decAttr (encAttr a ++ ts) = some (a, ts) := rfl

theorem decList_enc (dec : List Tok → Option (α × List Tok))
    (enc : α → List Tok)
    (hround : ∀ a ts, dec (enc a ++ ts) = some (a, ts))
    (l : List α) (ts : List Tok) :
    decList dec l.length ((l.map enc).flatten ++ ts) = some (l, ts) := by
  induction l with
  | nil => rfl
  | cons a rest ih =>
    simp only [List.length_cons, List.map_cons, List.flatten_cons,
      List.append_assoc, decList, List.append_eq, hround, ih]

theorem decNode_enc (n : NodeProto) (ts : List Tok) :
    decNode (encNode n ++ ts) = some (n, ts) := by
  match n with
  | ⟨nm, op, attrs⟩ =>
    show decNode (Tok.str nm :: Tok.str op :: Tok.nat attrs.length ::
      ((attrs.map encAttr).flatten ++ ts)) = _
    simp only [decNode, decList_enc decAttr encAttr decAttr_enc attrs ts]

theorem decTensor_enc (t : TensorProto) (ts : List Tok) :
    decTensor (encTensor t ++ ts) = some (t, ts) := by
  match t with
  | ⟨nm, dims, data⟩ =>
    simp only [encTensor, encNats, List.cons_append, List.append_assoc]
    simp only [decTensor, decNats_enc]

/-- Round trip of the modelled serialization: parsing the serialized form
of any graph returns that graph. -/
theorem parse_serialize (g : GraphProto) :
    parseModel (serializeModel g) = some g := by
  match g with
  | ⟨nodes, inits⟩ =>
    show parseModel (Tok.nat nodes.length :: ((nodes.map encNode).flatten ++
      (Tok.nat inits.length :: (inits.map encTensor).flatten))) = _
    have h1 := decList_enc decNode encNode decNode_enc nodes
      (Tok.nat inits.length :: (inits.map encTensor).flatten)
    have h2 : decList decTensor inits.length ((inits.map encTensor).flatten ++ []) =
        some (inits, []) := decList_enc decTensor encTensor decTensor_enc inits []
    rw [List.append_nil] at h2
    simp only [parseModel, h1, h2]

/-- Claim C9: serializing the patched graph and re-parsing it yields a
graph with the same node count as the original, the same initializer
values, and on every node the same attributes as before patching except
the removed first `ceil_mode` attribute of each AveragePool node. -/
theorem C9_roundtrip_patched (g : GraphProto) :
    ∃ g2, parseModel (serializeModel (patch_ceil_mode g).1) = some g2 ∧
      g2.node.length = g.node.length ∧
      g2.initializer = g.initializer ∧
      g2.node = g.node.map (fun n =>
        if n.op_type == "AveragePool" then
          { n with attr := n.attr.eraseP ceilAttr }
        else n) := by
  refine ⟨(patch_ceil_mode g).1, parse_serialize _, ?_, rfl, ?_⟩
  · show (g.node.map (fun n => (patchNode n).1)).length = g.node.length
    rw [List.length_map]
  · show g.node.map (fun n => (patchNode n).1) = _
    exact List.map_congr_left (fun n _ => patchNode_fst n)

end PatchDet10g


/-- Claim C8 counterexample: with exactly one argument, the patcher does
not use a fixed default output filename: the output path is derived from
the input path, so two different input paths yield two different output
paths. -/
theorem C8_counterexample :
    (PatchDet10g.resolveArgs ["a.onnx"]).2 = "a_patched.onnx" ∧
    (PatchDet10g.resolveArgs ["b.onnx"]).2 = "b_patched.onnx" ∧
    (PatchDet10g.resolveArgs ["a.onnx"]).2 ≠ (PatchDet10g.resolveArgs ["b.onnx"]).2 := by
  refine ⟨?_, ?_, ?_⟩ <;> decide

/-- Claim C8 (amended): with exactly one argument, both tools treat it as
the input path; the extractor then uses the fixed output filename
"emap.bin" independent of the input path, while the patcher derives its
output filename from the input path by replacing ".onnx" with
"_patched.onnx". -/
theorem C8_amended_one_arg (p q : String) :
    ExtractEmap.resolveArgs [p] = (p, "emap.bin") ∧
    (ExtractEmap.resolveArgs [p]).2 = (ExtractEmap.resolveArgs [q]).2 ∧
    PatchDet10g.resolveArgs [p] =
      (p, PatchDet10g.pyReplace p ".onnx" "_patched.onnx") :=
  ⟨rfl, rfl, rfl⟩
